import Mathlib

/-!
Shallow embedding of the rustcap core module (src/core.rs), a safe wrapper
around a native packet capture engine (libpcap). Native memory such as C
strings, socket address structures, the linked device list, and fixed size
error buffers is modelled as explicit Lean data; native calls are modelled
by passing their observable results (status codes, returned descriptors,
delivered packets, last error strings) as explicit arguments. Rust panics
are modelled by the RunResult type, whose panicked constructor carries a
tag distinguishing the panic site.
-/

namespace Rustcap

/-- Byte strings read from or written to native memory: each entry is one
byte value. Rust String values are modelled by their UTF-8 byte content. -/
abbrev Bytes := List Nat

/-- Model of a Rust computation that may panic. The panicked constructor
carries a tag identifying the panic source, since distinct unwrap sites
carry distinct payloads in Rust. -/
inductive RunResult (α : Type) where
  | panicked (tag : String)
  | val (a : α)
deriving DecidableEq

/-- Is the byte a UTF-8 continuation byte. -/
def contByte (b : Nat) : Bool := decide (0x80 ≤ b ∧ b ≤ 0xBF)

/-- Length of the well formed UTF-8 scalar sequence at the head of the
list, if any. This models the byte level classification used by the
standard library str conversions. -/
def scalarLen : Bytes → Option Nat
  | [] => none
  | b :: rest =>
    if b ≤ 0x7F then some 1
    else if 0xC2 ≤ b ∧ b ≤ 0xDF then
      match rest with
      | b1 :: _ => if contByte b1 then some 2 else none
      | [] => none
    else if b = 0xE0 then
      match rest with
      | b1 :: b2 :: _ =>
        if decide (0xA0 ≤ b1 ∧ b1 ≤ 0xBF) && contByte b2 then some 3 else none
      | _ => none
    else if (0xE1 ≤ b ∧ b ≤ 0xEC) ∨ b = 0xEE ∨ b = 0xEF then
      match rest with
      | b1 :: b2 :: _ => if contByte b1 && contByte b2 then some 3 else none
      | _ => none
    else if b = 0xED then
      match rest with
      | b1 :: b2 :: _ =>
        if decide (0x80 ≤ b1 ∧ b1 ≤ 0x9F) && contByte b2 then some 3 else none
      | _ => none
    else if b = 0xF0 then
      match rest with
      | b1 :: b2 :: b3 :: _ =>
        if decide (0x90 ≤ b1 ∧ b1 ≤ 0xBF) && contByte b2 && contByte b3 then some 4 else none
      | _ => none
    else if 0xF1 ≤ b ∧ b ≤ 0xF3 then
      match rest with
      | b1 :: b2 :: b3 :: _ =>
        if contByte b1 && contByte b2 && contByte b3 then some 4 else none
      | _ => none
    else if b = 0xF4 then
      match rest with
      | b1 :: b2 :: b3 :: _ =>
        if decide (0x80 ≤ b1 ∧ b1 ≤ 0x8F) && contByte b2 && contByte b3 then some 4 else none
      | _ => none
    else none

/-- Fuelled UTF-8 validity check; every step consumes at least one byte,
so fuel equal to the list length always suffices. -/
def validUtf8Fuel : Nat → Bytes → Bool
  | 0, bs => bs.isEmpty
  | _ + 1, [] => true
  | fuel + 1, b :: rest =>
    match scalarLen (b :: rest) with
    | some k => validUtf8Fuel fuel (List.drop (k - 1) rest)
    | none => false

/-- Does the byte list form well formed UTF-8 text: model of the validity
check performed by the strict str conversion. -/
def validUtf8 (bs : Bytes) : Bool := validUtf8Fuel bs.length bs

/-- Replacement character bytes emitted by the lossy conversion. -/
def replacementChar : Bytes := [0xEF, 0xBF, 0xBD]

/-- Fuelled lossy conversion; every step consumes at least one byte, so
fuel equal to the list length always suffices. -/
def lossyDecodeFuel : Nat → Bytes → Bytes
  | 0, _ => []
  | _ + 1, [] => []
  | fuel + 1, b :: rest =>
    match scalarLen (b :: rest) with
    | some k => List.take k (b :: rest) ++ lossyDecodeFuel fuel (List.drop (k - 1) rest)
    | none => replacementChar ++ lossyDecodeFuel fuel rest

/-- Model of the lossy text conversion: well formed scalar sequences are
kept, ill formed bytes are replaced with the replacement character. -/
def lossyDecode (bs : Bytes) : Bytes := lossyDecodeFuel bs.length bs

/-- Model of CStr from_bytes_with_nul over a byte list: succeeds exactly
when the list ends with a nul byte and has no interior nul, returning the
content without the terminator. -/
def from_bytes_with_nul (bs : Bytes) : Option Bytes :=
  if bs.getLast? = some 0 ∧ ¬ 0 ∈ bs.dropLast then some bs.dropLast else none

def PCAP_ERRBUF_SIZE : Nat := 256

/-- Fixed capacity error message buffer passed by address to native calls,
read afterwards. -/
structure ErrBuf where
  buf : Bytes
deriving DecidableEq

/-- ErrBuf new: a zero filled buffer of PCAP_ERRBUF_SIZE bytes. -/
def ErrBuf.new : ErrBuf := ⟨List.replicate PCAP_ERRBUF_SIZE 0⟩

/-- ErrBuf read: decode the whole fixed buffer as a nul terminated byte
string and convert the content lossily; none models the Err branch of
CStr from_bytes_with_nul. -/
def ErrBuf.read (eb : ErrBuf) : Option Bytes :=
  (from_bytes_with_nul eb.buf).map lossyDecode

/-- Typed error value: optional human readable message plus status code. -/
structure Error where
  message : Option Bytes
  code : Int
deriving DecidableEq

/-- Error new: the message is present exactly when the buffer decodes, the
code is the one supplied by the wrapper. -/
def Error.new (err_buf : ErrBuf) (err_code : Int) : Error :=
  { message := err_buf.read, code := err_code }

/-- Error from_last: reads the session last error string, none modelling a
null pointer returned by pcap_geterr. The source unwraps a strict UTF-8
conversion of that string, so a message that is not valid text panics
rather than being decoded lossily. -/
def Error.from_last (lastErr : Option Bytes) (code : Int) : RunResult Error :=
  match lastErr with
  | some bs =>
    if validUtf8 bs then .val { message := some bs, code := code }
    else .panicked "Utf8Error"
  | none => .val { message := none, code := code }

/-- Error check: a zero status is success; a nonzero status builds an error
from the session last error carrying the native status as its code. -/
def Error.check (lastErr : Option Bytes) (code : Int) : RunResult (Except Error Unit) :=
  if code ≠ 0 then
    match Error.from_last lastErr code with
    | .panicked tag => .panicked tag
    | .val e => .val (.error e)
  else .val (.ok ())

/-- Model of CString new: fails exactly when the text has an interior nul
byte; the wrapper then unwraps the failure into a panic. -/
def cstring_new (bs : Bytes) : Option Bytes :=
  if 0 ∈ bs then none else some bs

/-- Capture handle owning one native session descriptor, modelled by the
descriptor address. The breakable mode reference counted companion cell is
modelled separately by LifetimeState below. -/
structure Handle where
  handle : Nat
deriving DecidableEq

/-- Handle new wraps the native descriptor. -/
def Handle.new (h : Nat) : Handle := ⟨h⟩

/-- create: builds a C string from the interface name, panicking on an
embedded nul byte, then performs the native create call, whose observable
result (a null or valid descriptor) and filled error buffer are passed in.
A null descriptor yields an error built from the buffer with code 1. -/
def create (interface_name : Bytes) (native_handle : Option Nat)
    (errBufAfter : ErrBuf) : RunResult (Except Error Handle) :=
  match cstring_new interface_name with
  | none => .panicked "NulError"
  | some _ =>
    match native_handle with
    | none => .val (.error (Error.new errBufAfter 1))
    | some h => .val (.ok (Handle.new h))

/-- open_live: like create but the error attached on a null descriptor
carries code 0. The snaplen, promisc and timeout arguments are forwarded
to the native call and do not affect the wrapper control flow. -/
def open_live (interface_name : Bytes) (snaplen : Int) (promisc : Bool)
    (read_timeout_ms : Int) (native_handle : Option Nat)
    (errBufAfter : ErrBuf) : RunResult (Except Error Handle) :=
  match cstring_new interface_name with
  | none => .panicked "NulError"
  | some _ =>
    match native_handle with
    | none => .val (.error (Error.new errBufAfter 0))
    | some h => .val (.ok (Handle.new h))

/-- compile: builds a C string from the filter text, panicking on an
embedded nul byte, invokes the native compiler whose status is passed in,
and checks the status against the session last error. Unit stands for the
produced compiled program, which is not interpreted by the wrapper. -/
def Handle.compile (filter : Bytes) (optimize : Bool) (netmask : Nat)
    (lastErr : Option Bytes) (native_status : Int) :
    RunResult (Except Error Unit) :=
  match cstring_new filter with
  | none => .panicked "NulError"
  | some _ => Error.check lastErr native_status

/-- set_filter wraps pcap_setfilter through the shared status check. -/
def Handle.set_filter (lastErr : Option Bytes) (native_status : Int) :
    RunResult (Except Error Unit) :=
  Error.check lastErr native_status

/-- set_snaplen wraps pcap_set_snaplen through the shared status check. -/
def Handle.set_snaplen (snaplen : Nat) (lastErr : Option Bytes)
    (native_status : Int) : RunResult (Except Error Unit) :=
  Error.check lastErr native_status

/-- set_promisc wraps pcap_set_promisc through the shared status check. -/
def Handle.set_promisc (promisc : Bool) (lastErr : Option Bytes)
    (native_status : Int) : RunResult (Except Error Unit) :=
  Error.check lastErr native_status

/-- activate wraps pcap_activate through the shared status check. -/
def Handle.activate (lastErr : Option Bytes) (native_status : Int) :
    RunResult (Except Error Unit) :=
  Error.check lastErr native_status

/-- set_nonblock does not use the shared status check: a nonzero native
status yields an error built from the error buffer with the fixed code 1
rather than the native status and the session last error. -/
def Handle.set_nonblock (non_blocking : Bool) (errBufAfter : ErrBuf)
    (native_status : Int) : Except Error Unit :=
  if native_status ≠ 0 then .error (Error.new errBufAfter 1) else .ok ()

/-- Timestamp of a captured packet: seconds and microseconds, both signed
64 bit in the wrapper. -/
structure TimeStamp where
  sec : Int
  usec : Int
deriving DecidableEq

/-- Cast of a signed 64 bit value to u64, wrapping. -/
def u64_of_i64 (n : Int) : Nat := (n % (2 ^ 64)).toNat

/-- Cast of a signed 64 bit value to u32, truncating. -/
def u32_of_i64 (n : Int) : Nat := (n % (2 ^ 32)).toNat

def NANOS_PER_SEC : Nat := 1000000000

/-- Duration new: nanoseconds at or above one second carry into the
seconds field, panicking if the u64 seconds field overflows. -/
def duration_new (secs nanos : Nat) : RunResult (Nat × Nat) :=
  if secs + nanos / NANOS_PER_SEC < 2 ^ 64 then
    .val (secs + nanos / NANOS_PER_SEC, nanos % NANOS_PER_SEC)
  else .panicked "overflow when adding durations"

/-- SystemTime addition of a Duration to the unix epoch: the addition is
checked and panics when the seconds exceed the platform time range (the
unix representation stores seconds since the epoch as a signed 64 bit
field, which starts at zero at the epoch). On success the value is the
number of nanoseconds after the epoch. -/
def epoch_add_duration (secs nanos : Nat) : RunResult Nat :=
  if secs ≤ 2 ^ 63 - 1 then .val (secs * NANOS_PER_SEC + nanos)
  else .panicked "overflow when adding duration to instant"

/-- Into SystemTime for TimeStamp: the epoch plus a duration built from the
sec field cast to u64 and the usec field times 1000 cast to u32, through
the checked SystemTime addition. -/
def TimeStamp.intoSystemTime (ts : TimeStamp) : RunResult Nat :=
  match duration_new (u64_of_i64 ts.sec) (u32_of_i64 (ts.usec * 1000)) with
  | .panicked tag => .panicked tag
  | .val sn => epoch_add_duration sn.1 sn.2

def AF_INET : Int := 2
def AF_INET6 : Int := 10

/-- Fields of the native IPv4 socket address structure used by the
conversion. -/
structure SockAddrIn where
  sin_port : Nat
  sin_addr_s_addr : Nat
deriving DecidableEq

/-- Fields of the native IPv6 socket address structure used by the
conversion. -/
structure SockAddrIn6 where
  sin6_port : Nat
  sin6_flowinfo : Nat
  sin6_addr : Bytes
  sin6_scope_id : Nat
deriving DecidableEq

/-- A native sockaddr classified by its sa_family tag: the first two
constructors carry the payload obtained by reinterpreting the structure at
the matching family, the last carries any other family value. -/
inductive RawSockAddr where
  | mk4 (a : SockAddrIn)
  | mk6 (a : SockAddrIn6)
  | unhandled (sa_family : Int)
deriving DecidableEq

/-- The sa_family tag of a native sockaddr. -/
def RawSockAddr.sa_family : RawSockAddr → Int
  | .mk4 _ => AF_INET
  | .mk6 _ => AF_INET6
  | .unhandled f => f

/-- Typed IPv4 address: four octets. -/
structure Ipv4Addr where
  octets : Bytes
deriving DecidableEq

/-- From u32 for Ipv4Addr: the big endian octets of the 32 bit value. -/
def Ipv4Addr.fromU32 (n : Nat) : Ipv4Addr :=
  ⟨[n / 2 ^ 24 % 256, n / 2 ^ 16 % 256, n / 2 ^ 8 % 256, n % 256]⟩

/-- Recombine the octets of an Ipv4Addr into the 32 bit value. -/
def Ipv4Addr.toU32 (a : Ipv4Addr) : Nat :=
  match a.octets with
  | [b0, b1, b2, b3] => ((b0 * 256 + b1) * 256 + b2) * 256 + b3
  | _ => 0

/-- Typed IPv6 address: sixteen octets. -/
structure Ipv6Addr where
  octets : Bytes
deriving DecidableEq

structure SocketAddrV4 where
  ip : Ipv4Addr
  port : Nat
deriving DecidableEq

structure SocketAddrV6 where
  ip : Ipv6Addr
  port : Nat
  flowinfo : Nat
  scope_id : Nat
deriving DecidableEq

inductive SocketAddr where
  | V4 (a : SocketAddrV4)
  | V6 (a : SocketAddrV6)
deriving DecidableEq

/-- socketaddr_from_sockaddr: dispatch on the address family; AF_INET and
AF_INET6 produce typed socket addresses built from the native fields, any
other family yields none. -/
def socketaddr_from_sockaddr : RawSockAddr → Option SocketAddr
  | .mk4 a => some (.V4 { ip := Ipv4Addr.fromU32 a.sin_addr_s_addr, port := a.sin_port })
  | .mk6 a => some (.V6 ⟨⟨a.sin6_addr⟩, a.sin6_port, a.sin6_flowinfo, a.sin6_scope_id⟩)
  | .unhandled _ => none

/-- One native pcap_addr node without its next pointer: four possibly null
socket address pointers, none modelling a null pointer. -/
structure PcapAddrRec where
  addr : Option RawSockAddr
  netmask : Option RawSockAddr
  broadaddr : Option RawSockAddr
  dstaddr : Option RawSockAddr
deriving DecidableEq

/-- Owned address record with four optional typed socket addresses. -/
structure Address where
  address : Option SocketAddr
  netmask : Option SocketAddr
  broadcast : Option SocketAddr
  destination : Option SocketAddr
deriving DecidableEq

/-- From pcap_addr for Address: each field is converted when its pointer
is non null, a null pointer giving none. -/
def Address.fromPcapAddr (a : PcapAddrRec) : Address :=
  { address := a.addr.bind socketaddr_from_sockaddr,
    netmask := a.netmask.bind socketaddr_from_sockaddr,
    broadcast := a.broadaddr.bind socketaddr_from_sockaddr,
    destination := a.dstaddr.bind socketaddr_from_sockaddr }

def PCAP_IF_LOOPBACK : Nat := 1
def PCAP_IF_UP : Nat := 2
def PCAP_IF_RUNNING : Nat := 4

/-- from_bits_truncate for IfFlags: keep only the known flag bits. -/
def IfFlags.from_bits_truncate (bits : Nat) : Nat :=
  bits &&& (PCAP_IF_LOOPBACK ||| PCAP_IF_UP ||| PCAP_IF_RUNNING)

/-- One native pcap_if node without its next pointer: the linked address
list of the node is materialized as a Lean list in node order. -/
structure PcapIf where
  name : Bytes
  description : Option Bytes
  addresses : List PcapAddrRec
  flags : Nat
deriving DecidableEq

/-- Owned network interface record. -/
structure NetworkInterface where
  name : Bytes
  description : Option Bytes
  addresses : List Address
  flags : Nat
deriving DecidableEq

/-- From pcap_if for NetworkInterface: the name and description strings
are copied with lossy decoding, the address linked list is walked in order
with each node converted eagerly into owned storage, and the flags are
truncated to the known bits. -/
def NetworkInterface.fromPcapIf (i : PcapIf) : NetworkInterface :=
  { name := lossyDecode i.name,
    description := i.description.map lossyDecode,
    addresses := i.addresses.map Address.fromPcapAddr,
    flags := IfFlags.from_bits_truncate i.flags }

/-- Iterator owning the native device list: base is the owned list head
handed to the final free call, next is the cursor, a suffix of base. The
native singly linked list is modelled as a Lean list of nodes. -/
structure NetworkInterfaceIterator where
  base : List PcapIf
  next : List PcapIf
deriving DecidableEq

/-- Iterator next: a non null cursor yields the eagerly converted owned
record and advances the cursor to the node next pointer; a null cursor
yields none. No free call happens here. -/
def NetworkInterfaceIterator.nextRecord (it : NetworkInterfaceIterator) :
    Option NetworkInterface × NetworkInterfaceIterator :=
  match it.next with
  | [] => (none, it)
  | p :: rest => (some (NetworkInterface.fromPcapIf p), { it with next := rest })

/-- Drop for NetworkInterfaceIterator: the list of native free all devices
calls performed when the iterator value is dropped, each naming the freed
list head; the implementation performs exactly one call, on base. -/
def NetworkInterfaceIterator.dropFrees (it : NetworkInterfaceIterator) :
    List (List PcapIf) :=
  [it.base]

/-- Run up to fuel iterator steps, collecting the yielded records and
returning the final iterator state; stops early when next yields none. -/
def collectSteps : Nat → NetworkInterfaceIterator →
    List NetworkInterface × NetworkInterfaceIterator
  | 0, it => ([], it)
  | k + 1, it =>
    match NetworkInterfaceIterator.nextRecord it with
    | (none, it2) => ([], it2)
    | (some x, it2) =>
      let p := collectSteps k it2
      (x :: p.1, p.2)

/-- find_all_devs: the native call either succeeds with the list head,
which the returned iterator owns with its cursor at the head, or fails
with a nonzero status and a filled error buffer converted to an Error. -/
def find_all_devs (native : Except (ErrBuf × Int) (List PcapIf)) :
    Except Error NetworkInterfaceIterator :=
  match native with
  | .ok head => .ok { base := head, next := head }
  | .error er => .error (Error.new er.1 er.2)

/-- State of the reference counted HandleLifetime companion cell used in
breakable mode: the strong reference count of the shared cell, the number
of native close calls performed so far, and the number of break loop
requests issued so far. -/
structure LifetimeState where
  refs : Nat
  closes : Nat
  breaks : Nat
deriving DecidableEq

/-- Events on a Handle and the LoopBreakers cloned from it in breakable
mode: loop_breaker or a breaker clone adds a strong reference; dropping
the Handle or a breaker removes one; break_loop requests cancellation. -/
inductive LifetimeEvent where
  | cloneBreaker
  | dropOwner
  | breakLoop
deriving DecidableEq

/-- One event step: cloning increments the shared count; dropping the
Handle or a breaker decrements it, the native close firing exactly when
the last reference goes away (Drop for HandleLifetime); a break loop
request only records the cancellation request (pcap_breakloop) and never
touches the count or the close. -/
def stepLifetime (s : LifetimeState) : LifetimeEvent → LifetimeState
  | .cloneBreaker => { s with refs := s.refs + 1 }
  | .dropOwner =>
    if s.refs = 1 then { refs := 0, closes := s.closes + 1, breaks := s.breaks }
    else { s with refs := s.refs - 1 }
  | .breakLoop => { s with breaks := s.breaks + 1 }

/-- Run a sequence of lifetime events from a starting state. -/
def runLifetime (s : LifetimeState) (tr : List LifetimeEvent) : LifetimeState :=
  tr.foldl stepLifetime s

/-- Handle new in breakable mode wraps the descriptor in a fresh shared
cell with one strong reference, held by the Handle itself. -/
def initLifetime : LifetimeState := { refs := 1, closes := 0, breaks := 0 }

/-- A trace is valid from r live references when every event happens while
at least one owner (the Handle or a breaker) is still live. -/
def validFrom : Nat → List LifetimeEvent → Bool
  | _, [] => true
  | r, e :: tr =>
    decide (0 < r) &&
      match e with
      | .cloneBreaker => validFrom (r + 1) tr
      | .dropOwner => validFrom (r - 1) tr
      | .breakLoop => validFrom r tr

/-- Number of clone events in a trace. -/
def countClones : List LifetimeEvent → Nat
  | [] => 0
  | .cloneBreaker :: tr => countClones tr + 1
  | _ :: tr => countClones tr

/-- Number of owner drop events in a trace. -/
def countDrops : List LifetimeEvent → Nat
  | [] => 0
  | .dropOwner :: tr => countDrops tr + 1
  | _ :: tr => countDrops tr

/-- Number of break loop requests in a trace. -/
def countBreaks : List LifetimeEvent → Nat
  | [] => 0
  | .breakLoop :: tr => countBreaks tr + 1
  | _ :: tr => countBreaks tr

/-- Native packet header delivered by the engine during the capture loop. -/
structure NativePktHdr where
  tv_sec : Int
  tv_usec : Int
  caplen : Nat
  len : Nat
deriving DecidableEq

/-- Owned per packet header constructed for each delivery. -/
structure PacketHeader where
  ts : TimeStamp
  caplen : Nat
  len : Nat
deriving DecidableEq

/-- The truncation warning text logged when caplen is below len. -/
def truncationWarning : String := "WARNING: Did not capture entire packet"

/-- The closure loop_ installs for each delivered packet: it logs a
truncation warning when caplen is below len, slices exactly caplen bytes
of the native payload buffer, copies the native header fields into an
owned PacketHeader, and invokes the callback; there is no error channel.
The returned triple records the warnings logged and the two arguments the
callback is invoked with. -/
def Handle.loop_body (hdr : NativePktHdr) (packet : Bytes) :
    List String × PacketHeader × Bytes :=
  (if hdr.caplen < hdr.len then [truncationWarning] else [],
   { ts := { sec := hdr.tv_sec, usec := hdr.tv_usec },
     caplen := hdr.caplen, len := hdr.len },
   packet.take hdr.caplen)

/-- loop_ drives native delivery: the engine delivers a sequence of
packets and the installed closure runs once per packet, in order. -/
def Handle.loop_ (delivered : List (NativePktHdr × Bytes)) :
    List (List String × PacketHeader × Bytes) :=
  delivered.map fun hp => Handle.loop_body hp.1 hp.2

/-- C9 counterexample: a TimeStamp with a negative sec field and usec in
range wraps through the u64 cast into a duration of nearly 2 to the 64
seconds, and the checked SystemTime addition then panics with an overflow,
so the conversion yields no time point at all: the claim that conversion
always yields the epoch plus sec seconds plus usec microseconds fails at
sec equal to minus one. -/
theorem timestamp_negative_sec_counterexample :
    TimeStamp.intoSystemTime { sec := -1, usec := 0 } =
      .panicked "overflow when adding duration to instant" ∧
    (∀ n : Nat, TimeStamp.intoSystemTime { sec := -1, usec := 0 } ≠ .val n) := by
  refine ⟨rfl, fun n h => ?_⟩
  rw [show TimeStamp.intoSystemTime { sec := -1, usec := 0 } =
    .panicked "overflow when adding duration to instant" from rfl] at h
  exact RunResult.noConfusion h

/-- C9 amended: for every TimeStamp whose sec field is nonnegative (and in
the i64 range) and whose usec field is in [0, 1000000), the conversion
yields exactly the epoch plus sec seconds plus usec microseconds. -/
theorem timestamp_conversion_amended (ts : TimeStamp)
    (hsec0 : 0 ≤ ts.sec) (hsec1 : ts.sec < 2 ^ 63)
    (husec0 : 0 ≤ ts.usec) (husec1 : ts.usec < 1000000) :
    TimeStamp.intoSystemTime ts =
      .val (ts.sec.toNat * NANOS_PER_SEC + ts.usec.toNat * 1000) ∧
    ((ts.sec.toNat * NANOS_PER_SEC + ts.usec.toNat * 1000 : Nat) : Int) =
      ts.sec * (NANOS_PER_SEC : Int) + ts.usec * 1000 := by
  have hsecmod : ts.sec % (2 ^ 64) = ts.sec := by omega
  have husecmod : (ts.usec * 1000) % (2 ^ 32) = ts.usec * 1000 := by omega
  have hu64 : u64_of_i64 ts.sec = ts.sec.toNat := by
    simp only [u64_of_i64, hsecmod]
  have hu32 : u32_of_i64 (ts.usec * 1000) = ts.usec.toNat * 1000 := by
    simp only [u32_of_i64, husecmod]
    omega
  have hnanos : ts.usec.toNat * 1000 < NANOS_PER_SEC := by
    simp only [NANOS_PER_SEC]; omega
  constructor
  · have hdiv : ts.usec.toNat * 1000 / NANOS_PER_SEC = 0 := Nat.div_eq_of_lt hnanos
    have hmod : ts.usec.toNat * 1000 % NANOS_PER_SEC = ts.usec.toNat * 1000 :=
      Nat.mod_eq_of_lt hnanos
    have hlt : ts.sec.toNat + ts.usec.toNat * 1000 / NANOS_PER_SEC < 2 ^ 64 := by
      rw [hdiv]; omega
    have hsec63 : ts.sec.toNat + 0 ≤ 2 ^ 63 - 1 := by omega
    simp only [TimeStamp.intoSystemTime, duration_new, hu64, hu32]
    rw [if_pos hlt, hdiv, hmod]
    simp only [epoch_add_duration, if_pos hsec63]
    simp
  · push_cast
    rw [Int.toNat_of_nonneg hsec0, Int.toNat_of_nonneg husec0]

/-- C9 witness: the spec example, sec 10 and usec 500000, converts to the
point exactly 10.5 seconds after the epoch. -/
theorem timestamp_conversion_witness :
    (0 : Int) ≤ 10 ∧ (0 : Int) ≤ 500000 ∧
    TimeStamp.intoSystemTime { sec := 10, usec := 500000 } = .val 10500000000 := by
  refine ⟨by decide, by decide, ?_⟩
  have h := timestamp_conversion_amended { sec := 10, usec := 500000 }
    (by decide) (by decide) (by decide) (by decide)
  exact h.1

/-- Shared behaviour of the status check used by the configuration
operations, assuming the session last error message, when present, is
valid text (otherwise the strict conversion inside panics). -/
lemma check_spec (lastErr : Option Bytes) (status : Int)
    (hval : ∀ bs, lastErr = some bs → validUtf8 bs = true) :
    (status = 0 → Error.check lastErr status = .val (.ok ())) ∧
    (status ≠ 0 → Error.check lastErr status =
      .val (.error { message := lastErr, code := status })) := by
  constructor
  · intro h; subst h; simp [Error.check]
  · intro h
    cases lastErr with
    | none => simp [Error.check, h, Error.from_last]
    | some bs =>
      have hv := hval bs rfl
      simp [Error.check, h, Error.from_last, hv]

/-- The status check never produces the nul byte panic: its only panic
site is the strict text conversion of the last error message. -/
lemma check_ne_nul_panic (lastErr : Option Bytes) (status : Int) :
    Error.check lastErr status ≠ .panicked "NulError" := by
  cases lastErr with
  | none =>
    by_cases h : status = 0 <;> simp [Error.check, Error.from_last, h]
  | some bs =>
    by_cases h : status = 0 <;> by_cases hv : validUtf8 bs <;>
      simp [Error.check, Error.from_last, h, hv]

/-- C5 counterexample: constructing an Error from the session last error
accessor with a message that is not valid text panics (the strict UTF-8
conversion result is unwrapped) instead of falling back to a lossy decode,
so this construction path can fail. -/
theorem from_last_invalid_utf8_panics :
    Error.from_last (some [255]) 7 = .panicked "Utf8Error" := rfl

/-- C5 (amended): construction from the filled error buffer never fails,
its message is decoded lossily and is absent exactly when the whole fixed
buffer is not a single nul terminated byte string, and the code is always
the supplied one; construction from the session last error accessor yields
an absent message on a null pointer and the message itself on valid text,
but panics on a non null message that is not valid text. -/
theorem error_construction_amended (eb : ErrBuf) (code : Int) :
    (Error.new eb code).code = code ∧
    ((Error.new eb code).message = none ↔ from_bytes_with_nul eb.buf = none) ∧
    (∀ content, from_bytes_with_nul eb.buf = some content →
      (Error.new eb code).message = some (lossyDecode content)) ∧
    Error.from_last none code = .val { message := none, code := code } ∧
    (∀ bs, validUtf8 bs = true →
      Error.from_last (some bs) code = .val { message := some bs, code := code }) ∧
    (∀ bs, validUtf8 bs = false →
      Error.from_last (some bs) code = .panicked "Utf8Error") := by
  refine ⟨rfl, ?_, ?_, rfl, ?_, ?_⟩
  · simp [Error.new, ErrBuf.read]
  · intro content h; simp [Error.new, ErrBuf.read, h]
  · intro bs h; simp [Error.from_last, h]
  · intro bs h; simp [Error.from_last, h]

/-- C5 witness: a valid text last error message is carried through, and
the stated hypotheses hold at the concrete input. -/
theorem error_construction_amended_witness :
    validUtf8 [110, 111] = true ∧
    Error.from_last (some [110, 111]) (-3) =
      .val { message := some [110, 111], code := -3 } := by
  refine ⟨by decide, ?_⟩
  exact (error_construction_amended ErrBuf.new (-3)).2.2.2.2.1 [110, 111] (by decide)

/-- C6 counterexample: set_nonblock with native status minus one returns an
error whose code is the fixed constant 1 (built from the error buffer),
not the native status, refuting the claim that every configuration
operation carries the native status code. -/
theorem set_nonblock_code_not_native_status :
    Handle.set_nonblock true ErrBuf.new (-1) =
      .error { message := none, code := 1 } ∧
    (1 : Int) ≠ -1 := by
  constructor
  · rfl
  · decide

/-- C6 (amended): set_snaplen, set_promisc, activate, set_filter and
compile return Ok exactly when the native status is zero and otherwise an
error carrying the native status as its code together with the session
last error message where available; set_nonblock also returns Ok exactly
on status zero but its error carries the fixed code 1 and the error buffer
message instead of the native status and last error. -/
theorem config_ops_error_codes_amended (lastErr : Option Bytes) (status : Int)
    (eb : ErrBuf) (filter : Bytes) (optimize : Bool) (netmask snaplen : Nat)
    (promisc non_blocking : Bool)
    (hval : ∀ bs, lastErr = some bs → validUtf8 bs = true)
    (hf : ¬ 0 ∈ filter) :
    (status = 0 →
      Handle.set_snaplen snaplen lastErr status = .val (.ok ()) ∧
      Handle.set_promisc promisc lastErr status = .val (.ok ()) ∧
      Handle.activate lastErr status = .val (.ok ()) ∧
      Handle.set_filter lastErr status = .val (.ok ()) ∧
      Handle.compile filter optimize netmask lastErr status = .val (.ok ()) ∧
      Handle.set_nonblock non_blocking eb status = .ok ()) ∧
    (status ≠ 0 →
      Handle.set_snaplen snaplen lastErr status =
        .val (.error { message := lastErr, code := status }) ∧
      Handle.set_promisc promisc lastErr status =
        .val (.error { message := lastErr, code := status }) ∧
      Handle.activate lastErr status =
        .val (.error { message := lastErr, code := status }) ∧
      Handle.set_filter lastErr status =
        .val (.error { message := lastErr, code := status }) ∧
      Handle.compile filter optimize netmask lastErr status =
        .val (.error { message := lastErr, code := status }) ∧
      Handle.set_nonblock non_blocking eb status =
        .error { message := eb.read, code := 1 }) := by
  have hc := check_spec lastErr status hval
  constructor
  · intro h
    refine ⟨hc.1 h, hc.1 h, hc.1 h, hc.1 h, ?_, ?_⟩
    · simp only [Handle.compile, cstring_new, if_neg hf]
      exact hc.1 h
    · simp [Handle.set_nonblock, h]
  · intro h
    refine ⟨hc.2 h, hc.2 h, hc.2 h, hc.2 h, ?_, ?_⟩
    · simp only [Handle.compile, cstring_new, if_neg hf]
      exact hc.2 h
    · simp [Handle.set_nonblock, h, Error.new]

/-- C6 witness: with a valid text last error message and native status
minus two, set_snaplen reports an error with code minus two and that
message; the stated hypotheses hold at the concrete input. -/
theorem config_ops_error_codes_amended_witness :
    validUtf8 [97] = true ∧ ¬ 0 ∈ ([102] : Bytes) ∧
    Handle.set_snaplen 0 (some [97]) (-2) =
      .val (.error { message := some [97], code := -2 }) := by
  refine ⟨by decide, by decide, ?_⟩
  have h := config_ops_error_codes_amended (some [97]) (-2) ErrBuf.new [102]
    false 0 0 false false
    (fun bs hbs => by injection hbs with h2; subst h2; decide) (by decide)
  exact (h.2 (by decide)).1

/-- C7: for a name with no embedded nul byte, create returns Err exactly
when the native create call returns a null descriptor, with the error
buffer contents attached and code 1 populated, and an owning Handle
otherwise; open_live with a null native descriptor likewise returns Err. -/
theorem create_open_live_null_descriptor (name : Bytes) (hname : ¬ 0 ∈ name)
    (eb : ErrBuf) (snaplen : Int) (promisc : Bool) (timeout : Int) :
    create name none eb = .val (.error { message := eb.read, code := 1 }) ∧
    (∀ h, create name (some h) eb = .val (.ok (Handle.new h))) ∧
    open_live name snaplen promisc timeout none eb =
      .val (.error { message := eb.read, code := 0 }) ∧
    (∀ h, open_live name snaplen promisc timeout (some h) eb =
      .val (.ok (Handle.new h))) := by
  refine ⟨?_, ?_, ?_, ?_⟩ <;>
    simp [create, open_live, cstring_new, hname, Error.new]

/-- C7 witness: a concrete nul free name with a null native descriptor
yields Err carrying the buffer contents and code 1. -/
theorem create_open_live_null_descriptor_witness :
    ¬ 0 ∈ ([101] : Bytes) ∧
    create [101] none ErrBuf.new =
      .val (.error { message := ErrBuf.new.read, code := 1 }) := by
  refine ⟨by decide, ?_⟩
  exact (create_open_live_null_descriptor [101] (by decide) ErrBuf.new 0 false 0).1

/-- C8: create, open_live and compile panic with the nul byte assertion
exactly when the supplied text contains an embedded nul byte; text without
an embedded nul never triggers this panic. -/
theorem embedded_nul_panics_iff (name filter : Bytes)
    (native_handle : Option Nat) (eb : ErrBuf) (lastErr : Option Bytes)
    (status snaplen : Int) (promisc optimize : Bool) (timeout : Int)
    (netmask : Nat) :
    (create name native_handle eb = .panicked "NulError" ↔ 0 ∈ name) ∧
    (open_live name snaplen promisc timeout native_handle eb =
      .panicked "NulError" ↔ 0 ∈ name) ∧
    (Handle.compile filter optimize netmask lastErr status =
      .panicked "NulError" ↔ 0 ∈ filter) := by
  refine ⟨?_, ?_, ?_⟩
  · by_cases hn : 0 ∈ name
    · simp [create, cstring_new, hn]
    · simp only [create, cstring_new, if_neg hn]
      cases native_handle <;> simp [hn]
  · by_cases hn : 0 ∈ name
    · simp [open_live, cstring_new, hn]
    · simp only [open_live, cstring_new, if_neg hn]
      cases native_handle <;> simp [hn]
  · by_cases hn : 0 ∈ filter
    · simp [Handle.compile, cstring_new, hn]
    · simp only [Handle.compile, cstring_new, if_neg hn]
      simp [hn, check_ne_nul_panic lastErr status]

/-- C10: on a null native descriptor, create returns an Error with the
fixed code 1 and open_live an Error with the fixed code 0, regardless of
the error buffer contents. -/
theorem create_open_live_error_codes (name : Bytes) (hname : ¬ 0 ∈ name)
    (eb : ErrBuf) (snaplen : Int) (promisc : Bool) (timeout : Int) :
    (∃ e : Error, create name none eb = .val (.error e) ∧ e.code = 1) ∧
    (∃ e : Error, open_live name snaplen promisc timeout none eb =
      .val (.error e) ∧ e.code = 0) := by
  refine ⟨⟨Error.new eb 1, ?_, rfl⟩, ⟨Error.new eb 0, ?_, rfl⟩⟩ <;>
    simp [create, open_live, cstring_new, hname]

/-- C10 witness: the concrete nul free name with a null native descriptor
yields code 1 from create. -/
theorem create_open_live_error_codes_witness :
    ¬ 0 ∈ ([100] : Bytes) ∧
    (∃ e : Error, create [100] none ErrBuf.new = .val (.error e) ∧
      e.code = 1) := by
  refine ⟨by decide, ?_⟩
  exact (create_open_live_error_codes [100] (by decide) ErrBuf.new 0 false 0).1

/-- Iteration never changes the owned base pointer of the iterator. -/
lemma collectSteps_base (k : Nat) : ∀ it : NetworkInterfaceIterator,
    (collectSteps k it).2.base = it.base := by
  induction k with
  | zero => intro it; rfl
  | succ k ih =>
    intro it
    cases hc : it.next with
    | nil => simp [collectSteps, NetworkInterfaceIterator.nextRecord, hc]
    | cons p rest =>
      simp [collectSteps, NetworkInterfaceIterator.nextRecord, hc, ih]

/-- Fully iterating with fuel at least the cursor length yields one record
per node, in order, and leaves the cursor null. -/
lemma collectSteps_full : ∀ (cur base : List PcapIf) (fuel : Nat),
    cur.length ≤ fuel →
    collectSteps fuel ⟨base, cur⟩ =
      (cur.map NetworkInterface.fromPcapIf, ⟨base, []⟩) := by
  intro cur
  induction cur with
  | nil =>
    intro base fuel _
    cases fuel with
    | zero => rfl
    | succ k => simp [collectSteps, NetworkInterfaceIterator.nextRecord]
  | cons p rest ih =>
    intro base fuel hf
    cases fuel with
    | zero => simp at hf
    | succ k =>
      have hk : rest.length ≤ k := by simpa using hf
      simp [collectSteps, NetworkInterfaceIterator.nextRecord, ih base k hk]

/-- C1: a successful find_all_devs wraps the native list head in an
iterator whose cursor starts at the head; full iteration yields exactly
one owned record per node (N records for a list of length N) after which
next yields none; and whatever number of steps were taken before the
iterator is dropped, the drop performs exactly one native free all devices
call, on the list head captured at construction. -/
theorem find_all_devs_iteration_and_free (head : List PcapIf) (k : Nat) :
    find_all_devs (.ok head) = .ok { base := head, next := head } ∧
    (collectSteps head.length { base := head, next := head }).1 =
      head.map NetworkInterface.fromPcapIf ∧
    (collectSteps head.length { base := head, next := head }).1.length =
      head.length ∧
    (NetworkInterfaceIterator.nextRecord
      (collectSteps head.length { base := head, next := head }).2).1 = none ∧
    NetworkInterfaceIterator.dropFrees
      (collectSteps k { base := head, next := head }).2 = [head] := by
  have hfull := collectSteps_full head head head.length le_rfl
  refine ⟨rfl, ?_, ?_, ?_, ?_⟩
  · rw [hfull]
  · rw [hfull]; simp
  · rw [hfull]; rfl
  · simp [NetworkInterfaceIterator.dropFrees, collectSteps_base]

/-- Invariant of a valid event trace: the final reference count is the
starting count plus clones minus drops, the close fires exactly when the
count reaches zero, and cancellation requests accumulate independently of
both. -/
lemma runLifetime_spec : ∀ (tr : List LifetimeEvent) (r c b : Nat),
    validFrom r tr = true → 0 < r →
    (runLifetime ⟨r, c, b⟩ tr).refs = r + countClones tr - countDrops tr ∧
    (runLifetime ⟨r, c, b⟩ tr).closes =
      c + (if r + countClones tr = countDrops tr then 1 else 0) ∧
    (runLifetime ⟨r, c, b⟩ tr).breaks = b + countBreaks tr := by
  intro tr
  induction tr with
  | nil =>
    intro r c b _ hr
    refine ⟨by simp [runLifetime, countClones, countDrops], ?_,
      by simp [runLifetime, countBreaks]⟩
    have hne : ¬ (r + countClones [] = countDrops []) := by
      simp only [countClones, countDrops]; omega
    simp [runLifetime, hne]
  | cons e tr ih =>
    intro r c b hv hr
    cases e with
    | cloneBreaker =>
      simp only [validFrom, Bool.and_eq_true, decide_eq_true_eq] at hv
      have h1 := ih (r + 1) c b hv.2 (by omega)
      simp only [runLifetime, List.foldl_cons, stepLifetime] at h1 ⊢
      simp only [countClones, countDrops, countBreaks]
      refine ⟨?_, ?_, ?_⟩
      · rw [h1.1]; omega
      · rw [h1.2.1]; split_ifs <;> omega
      · rw [h1.2.2]
    | dropOwner =>
      simp only [validFrom, Bool.and_eq_true, decide_eq_true_eq] at hv
      by_cases hr1 : r = 1
      · subst hr1
        cases tr with
        | nil =>
          simp only [runLifetime, List.foldl_cons, List.foldl_nil, stepLifetime]
          simp [countClones, countDrops, countBreaks]
        | cons e2 tr2 =>
          exfalso
          have := hv.2
          simp [validFrom] at this
      · have h1 := ih (r - 1) c b hv.2 (by omega)
        simp only [runLifetime, List.foldl_cons, stepLifetime, if_neg hr1] at h1 ⊢
        simp only [countClones, countDrops, countBreaks]
        refine ⟨?_, ?_, ?_⟩
        · rw [h1.1]; omega
        · rw [h1.2.1]; split_ifs <;> omega
        · rw [h1.2.2]
    | breakLoop =>
      simp only [validFrom, Bool.and_eq_true, decide_eq_true_eq] at hv
      have h1 := ih r c (b + 1) hv.2 hr
      simp only [runLifetime, List.foldl_cons, stepLifetime] at h1 ⊢
      simp only [countClones, countDrops, countBreaks]
      refine ⟨?_, ?_, ?_⟩
      · rw [h1.1]
      · rw [h1.2.1]
      · rw [h1.2.2]; omega

/-- C2: in breakable mode the native descriptor is closed exactly once,
precisely when the last of the Handle and every LoopBreaker cloned from it
is dropped: along any valid trace the close count is one exactly when all
owners have been dropped and zero while any owner remains; a break loop
request never closes or releases the descriptor, it only records a
cancellation request. -/
theorem handle_lifetime_close_exactly_once (tr : List LifetimeEvent)
    (hv : validFrom 1 tr = true) :
    ((runLifetime initLifetime tr).closes =
      if 1 + countClones tr = countDrops tr then 1 else 0) ∧
    (countDrops tr < 1 + countClones tr →
      (runLifetime initLifetime tr).closes = 0) ∧
    (∀ s : LifetimeState, (stepLifetime s .breakLoop).closes = s.closes ∧
      (stepLifetime s .breakLoop).refs = s.refs) := by
  have h := runLifetime_spec tr 1 0 0 hv (by omega)
  refine ⟨?_, ?_, fun s => ⟨rfl, rfl⟩⟩
  · simpa [initLifetime] using h.2.1
  · intro hlt
    have hne : ¬ (1 + countClones tr = countDrops tr) := by omega
    have h2 := h.2.1
    simp only [initLifetime] at *
    rw [h2, if_neg hne]

/-- C2 witness: a concrete valid trace cloning one breaker, dropping the
Handle, requesting cancellation from the surviving breaker, and finally
dropping the breaker; the close fires exactly once, at the last drop. -/
theorem handle_lifetime_close_exactly_once_witness :
    validFrom 1 [.cloneBreaker, .dropOwner, .breakLoop, .dropOwner] = true ∧
    (runLifetime initLifetime
      [.cloneBreaker, .dropOwner, .breakLoop, .dropOwner]).closes = 1 := by
  refine ⟨by decide, ?_⟩
  have h := handle_lifetime_close_exactly_once
    [.cloneBreaker, .dropOwner, .breakLoop, .dropOwner] (by decide)
  rw [h.1]
  decide

/-- C3: for every packet delivered during loop_ whose native header has
caplen below len, the invocation produced by the per packet closure is
among the loop invocations, the callback byte slice has exactly caplen
bytes and never len bytes, the owned PacketHeader copies the native
timestamp, caplen and len, and a truncation warning is logged; the closure
has no error channel, so truncation is not surfaced as an error. -/
theorem loop_truncated_packet_delivery (delivered : List (NativePktHdr × Bytes))
    (hdr : NativePktHdr) (packet : Bytes)
    (hmem : (hdr, packet) ∈ delivered)
    (hlen : hdr.caplen ≤ packet.length)
    (htr : hdr.caplen < hdr.len) :
    Handle.loop_body hdr packet ∈ Handle.loop_ delivered ∧
    (Handle.loop_body hdr packet).2.2.length = hdr.caplen ∧
    (Handle.loop_body hdr packet).2.2.length ≠ hdr.len ∧
    (Handle.loop_body hdr packet).2.1 =
      { ts := { sec := hdr.tv_sec, usec := hdr.tv_usec },
        caplen := hdr.caplen, len := hdr.len } ∧
    (Handle.loop_body hdr packet).1 = [truncationWarning] := by
  refine ⟨?_, ?_, ?_, rfl, ?_⟩
  · exact List.mem_map_of_mem _ hmem
  · simp only [Handle.loop_body, List.length_take]; omega
  · simp only [Handle.loop_body, List.length_take]; omega
  · simp [Handle.loop_body, htr]

/-- C3 witness: a concrete delivery with caplen 2 and len 4 over a three
byte native buffer invokes the callback with exactly the first two bytes. -/
theorem loop_truncated_packet_delivery_witness :
    ((⟨5, 6, 2, 4⟩ : NativePktHdr), ([1, 2, 3] : Bytes)) ∈
      ([((⟨5, 6, 2, 4⟩ : NativePktHdr), ([1, 2, 3] : Bytes))] :
        List (NativePktHdr × Bytes)) ∧
    (2 : Nat) ≤ 3 ∧ (2 : Nat) < 4 ∧
    (Handle.loop_body ⟨5, 6, 2, 4⟩ [1, 2, 3]).2.2.length = 2 := by
  refine ⟨by decide, by decide, by decide, ?_⟩
  have h := loop_truncated_packet_delivery
    [((⟨5, 6, 2, 4⟩ : NativePktHdr), [1, 2, 3])] ⟨5, 6, 2, 4⟩ [1, 2, 3]
    (by decide) (by decide) (by decide)
  exact h.2.1

/-- C4: each field of a converted pcap_addr record is obtained by
converting its native pointer: a null pointer or an unrecognized address
family yields none, without error; a valid IPv4 structure yields a typed
IPv4 socket address and a valid IPv6 structure a typed IPv6 socket address
with flow info and scope id, and in both cases the constructed bytes round
trip through the typed address to the same bytes exactly. -/
theorem address_conversion_fields (rec : PcapAddrRec) :
    Address.fromPcapAddr rec =
      { address := rec.addr.bind socketaddr_from_sockaddr,
        netmask := rec.netmask.bind socketaddr_from_sockaddr,
        broadcast := rec.broadaddr.bind socketaddr_from_sockaddr,
        destination := rec.dstaddr.bind socketaddr_from_sockaddr } ∧
    Option.bind (none : Option RawSockAddr) socketaddr_from_sockaddr = none ∧
    (∀ f : Int, socketaddr_from_sockaddr (.unhandled f) = none) ∧
    (∀ a : SockAddrIn, a.sin_addr_s_addr < 2 ^ 32 →
      socketaddr_from_sockaddr (.mk4 a) =
        some (.V4 { ip := Ipv4Addr.fromU32 a.sin_addr_s_addr, port := a.sin_port }) ∧
      (Ipv4Addr.fromU32 a.sin_addr_s_addr).toU32 = a.sin_addr_s_addr) ∧
    (∀ a : SockAddrIn6,
      socketaddr_from_sockaddr (.mk6 a) =
        some (.V6 ⟨⟨a.sin6_addr⟩, a.sin6_port, a.sin6_flowinfo, a.sin6_scope_id⟩) ∧
      (⟨a.sin6_addr⟩ : Ipv6Addr).octets = a.sin6_addr) := by
  refine ⟨rfl, rfl, fun f => rfl, ?_, fun a => ⟨rfl, rfl⟩⟩
  intro a ha
  refine ⟨rfl, ?_⟩
  simp only [Ipv4Addr.fromU32, Ipv4Addr.toU32]
  omega

/-- C4 witness: the IPv4 conversion and round trip at a concrete address
value, with the u32 range hypothesis discharged. -/
theorem address_conversion_fields_witness :
    (258 : Nat) < 2 ^ 32 ∧
    socketaddr_from_sockaddr (.mk4 { sin_port := 7, sin_addr_s_addr := 258 }) =
      some (.V4 { ip := Ipv4Addr.fromU32 258, port := 7 }) ∧
    (Ipv4Addr.fromU32 258).toU32 = 258 := by
  refine ⟨by decide, ?_, ?_⟩
  · exact ((address_conversion_fields ⟨none, none, none, none⟩).2.2.2.1
      { sin_port := 7, sin_addr_s_addr := 258 } (by decide)).1
  · exact ((address_conversion_fields ⟨none, none, none, none⟩).2.2.2.1
      { sin_port := 7, sin_addr_s_addr := 258 } (by decide)).2

end Rustcap
